import Mathlib

/-!
Shallow embedding of the balance-ledger backend in `src/server.js`
(a Node/Express server over MongoDB).

Modelling choices:
* A MongoDB document store is modelled by `Db`: a list of user documents
  and a list of transaction documents.  `Model.findOne` is `List.find?`
  on the relevant key; `doc.save()` on a fetched document is a map over
  the list replacing the document with the same `id` (the schema declares
  `id` unique, so at most one document matches); inserting a new document
  appends it.
* Monetary values (`balance`, `amount`) are JavaScript numbers in the
  source; they are embedded as exact rationals `ℚ`.  Questions about
  binary floating-point rounding are therefore outside this embedding.
* Each HTTP handler becomes a function `Db → args → Except String Db`:
  `.error msg` is an early-return rejection response (in the source every
  such rejection happens before any `save()`, so it carries no state
  change), `.ok db'` is the success response together with the mutated
  store.  `parseFloat`/`isNaN` input parsing is abstracted by taking the
  already-parsed `ℚ` argument; `uuidv4` and `Date.now` are abstracted by
  passing the fresh id / current time as explicit arguments.
* `bcrypt` hashing is irrelevant to every claim (no balance effect); the
  stored password is modelled as the plaintext (identity hash).
-/

/-- A document of the `User` collection (`UserSchema`, server.js lines 19-28). -/
structure User where
  id : String
  email : String
  password : String
  username : String
  userType : String
  status : String
  balance : ℚ
  createdAt : Nat
deriving DecidableEq

/-- A document of the `Transaction` collection (`TransactionSchema`, lines 30-41).
`type` is one of the strings "deposit", "buy", "withdraw"; `walletAddress`
is only present for withdrawals; `approvedAt` is unset until approval. -/
structure Transaction where
  id : String
  userId : String
  type : String
  amount : ℚ
  status : String
  date : Nat
  approvedAt : Option Nat
  walletAddress : Option String
deriving DecidableEq

/-- The whole document store. -/
structure Db where
  users : List User
  txns : List Transaction
deriving DecidableEq

deriving instance DecidableEq for Except

/-- `User.findOne({ id: uid })`. -/
def findUser (db : Db) (uid : String) : Option User :=
  db.users.find? (fun u => u.id = uid)

/-- `Transaction.findOne({ id: tid })`. -/
def findTxn (db : Db) (tid : String) : Option Transaction :=
  db.txns.find? (fun t => t.id = tid)

/-- `user.save()` after mutating a fetched user document: the stored
document with the same unique `id` is replaced. -/
def saveUser (db : Db) (u : User) : Db :=
  { db with users := db.users.map (fun v => if v.id = u.id then u else v) }

/-- `transaction.save()` after mutating a fetched transaction document. -/
def saveTxn (db : Db) (t : Transaction) : Db :=
  { db with txns := db.txns.map (fun s => if s.id = t.id then t else s) }

/-- `new User(...); newUser.save()`: insert a fresh user document. -/
def insertUser (db : Db) (u : User) : Db :=
  { db with users := db.users ++ [u] }

/-- `new Transaction(...); newTransaction.save()`: insert a fresh
transaction document. -/
def insertTxn (db : Db) (t : Transaction) : Db :=
  { db with txns := db.txns ++ [t] }

/-- The balance of the user with id `uid`, if such a user exists. -/
def balOf (db : Db) (uid : String) : Option ℚ :=
  (findUser db uid).map (fun u => u.balance)

/-- The status of the transaction with id `tid`, if it exists. -/
def txnStatus (db : Db) (tid : String) : Option String :=
  (findTxn db tid).map (fun t => t.status)

/-- The `approvedAt` stamp of the transaction with id `tid`, if it exists. -/
def approvedAtOf (db : Db) (tid : String) : Option (Option Nat) :=
  (findTxn db tid).map (fun t => t.approvedAt)

/-- `POST /api/register` (server.js lines 99-125): reject a duplicate
email, otherwise insert a new user with status "pending" and the schema
defaults (`userType` "user", `balance` 0).  A duplicate of the fresh
`newId` would make the unique-index `save()` throw before any mutation,
answered as a 500 error. -/
def registerUser (db : Db) (email password username newId : String)
    (now : Nat) : Except String Db :=
  if (db.users.any (fun u => u.email = email)) then
    .error "User already exists."
  else if (db.users.any (fun u => u.id = newId)) then
    .error "Server error during registration."
  else
    .ok (insertUser db
      { id := newId, email := email, password := password,
        username := username, userType := "user", status := "pending",
        balance := 0, createdAt := now })

/-- `POST /api/admin/approve-user` (lines 180-196): set the user's status
to "approved". -/
def approveUser (db : Db) (userId : String) : Except String Db :=
  match findUser db userId with
  | none => .error "User not found."
  | some u => .ok (saveUser db { u with status := "approved" })

/-- `POST /api/admin/update-balance` (lines 199-221): reject a negative
amount, otherwise overwrite the user's balance with `newBalance`. -/
def updateBalance (db : Db) (userId : String) (newBalance : ℚ) :
    Except String Db :=
  if newBalance < 0 then
    .error "Invalid balance amount."
  else
    match findUser db userId with
    | none => .error "User not found."
    | some u => .ok (saveUser db { u with balance := newBalance })

/-- The test `walletAddress.trim() === ''` from server.js line 249: a
string trims to the empty string exactly when every character is
whitespace (this also covers the empty string itself, which the source
already rejects through `!walletAddress`). -/
def isBlank (s : String) : Bool :=
  s.data.all (fun c => c.isWhitespace)

/-- `POST /api/user/transaction` (lines 224-280): validate the amount,
look up the user, and for a withdrawal validate the wallet address, check
sufficiency and debit the balance immediately; then insert the new
transaction document with status "pending". -/
def createTransaction (db : Db) (userId ty : String) (amount : ℚ)
    (walletAddress : Option String) (newId : String) (now : Nat) :
    Except String Db :=
  if amount ≤ 0 then
    .error "Invalid transaction amount."
  else
    match findUser db userId with
    | none => .error "User not found."
    | some user =>
      if ty = "withdraw" then
        match walletAddress with
        | none => .error "Wallet address is required for withdrawal."
        | some wa =>
          if isBlank wa then
            .error "Wallet address is required for withdrawal."
          else if user.balance < amount then
            .error "Insufficient balance for withdrawal."
          else
            .ok (insertTxn
              (saveUser db { user with balance := user.balance - amount })
              { id := newId, userId := userId, type := ty, amount := amount,
                status := "pending", date := now, approvedAt := none,
                walletAddress := some wa })
      else
        .ok (insertTxn db
          { id := newId, userId := userId, type := ty, amount := amount,
            status := "pending", date := now, approvedAt := none,
            walletAddress := none })

/-- `POST /api/admin/approve-transaction` (lines 299-336): reject only
when the status is already "complete"; credit a deposit, check
sufficiency and debit a buy, make no balance change for a withdrawal;
then mark the transaction "complete" and stamp `approvedAt`. -/
def approveTransaction (db : Db) (transactionId : String) (now : Nat) :
    Except String Db :=
  match findTxn db transactionId with
  | none => .error "Transaction not found."
  | some t =>
    if t.status = "complete" then
      .error "Transaction already complete."
    else
      match findUser db t.userId with
      | none => .error "User for transaction not found."
      | some user =>
        if t.type = "deposit" then
          .ok (saveTxn (saveUser db { user with balance := user.balance + t.amount })
            { t with status := "complete", approvedAt := some now })
        else if t.type = "buy" then
          if user.balance < t.amount then
            .error "Insufficient balance to approve transaction."
          else
            .ok (saveTxn (saveUser db { user with balance := user.balance - t.amount })
              { t with status := "complete", approvedAt := some now })
        else
          .ok (saveTxn (saveUser db user)
            { t with status := "complete", approvedAt := some now })

/-- `POST /api/admin/deny-transaction` (lines 339-374): reject unless the
status is "pending"; refund the escrowed amount for a withdrawal (no
balance change for deposit/buy); then mark the transaction "failed"
(leaving `approvedAt` untouched). -/
def denyTransaction (db : Db) (transactionId : String) : Except String Db :=
  match findTxn db transactionId with
  | none => .error "Transaction not found."
  | some t =>
    if t.status ≠ "pending" then
      .error "Only pending transactions can be denied."
    else
      match findUser db t.userId with
      | none => .error "User for transaction not found."
      | some user =>
        let user' := if t.type = "withdraw" then
          { user with balance := user.balance + t.amount } else user
        .ok (saveTxn (saveUser db user') { t with status := "failed" })

/-- `POST /api/user/update-profile` (lines 377-411): require at least one
field, reject a duplicate email (unique-index error 11000), otherwise
update the provided fields. -/
def updateProfile (db : Db) (userId : String)
    (username email : Option String) : Except String Db :=
  if username = none ∧ email = none then
    .error "No update fields provided."
  else
    match findUser db userId with
    | none => .error "User not found."
    | some u =>
      match email with
      | some e =>
        if db.users.any (fun v => v.email = e ∧ v.id ≠ userId) then
          .error "Email is already in use."
        else
          .ok (saveUser db { u with username := username.getD u.username,
                                    email := e })
      | none =>
        .ok (saveUser db { u with username := username.getD u.username })

/-- `POST /api/user/change-password` (lines 414-451): field validation,
current-password check, then store the new password. -/
def changePassword (db : Db) (userId currentPassword newPassword
    confirmPassword : String) : Except String Db :=
  if currentPassword = "" ∨ newPassword = "" ∨ confirmPassword = "" then
    .error "All password fields are required."
  else if newPassword ≠ confirmPassword then
    .error "New passwords do not match."
  else if newPassword.length < 6 then
    .error "New password must be at least 6 characters."
  else
    match findUser db userId with
    | none => .error "User not found."
    | some u =>
      if currentPassword ≠ u.password then
        .error "Invalid current password."
      else
        .ok (saveUser db { u with password := newPassword })

/-- `POST /api/reset-password` (lines 454-483): look the user up by email
and store the new password. -/
def resetPassword (db : Db) (email newPassword : String) :
    Except String Db :=
  if email = "" ∨ newPassword = "" then
    .error "Email and new password are required."
  else
    match db.users.find? (fun u => u.email = email) with
    | none => .error "Could not reset password."
    | some u => .ok (saveUser db { u with password := newPassword })

/-- One state-mutating request to the server: the nine POST endpoints
that can write to the store. -/
inductive ServerOp where
  | register (email password username newId : String) (now : Nat)
  | approveUser (userId : String)
  | updateBalance (userId : String) (newBalance : ℚ)
  | createTxn (userId ty : String) (amount : ℚ)
      (walletAddress : Option String) (newId : String) (now : Nat)
  | approveTx (transactionId : String) (now : Nat)
  | denyTx (transactionId : String)
  | updateProfile (userId : String) (username email : Option String)
  | changePassword (userId currentPassword newPassword confirmPassword : String)
  | resetPassword (email newPassword : String)
deriving DecidableEq

/-- Dispatch a request to its handler. -/
def applyOp (op : ServerOp) (db : Db) : Except String Db :=
  match op with
  | .register e p un nid now => registerUser db e p un nid now
  | .approveUser uid => approveUser db uid
  | .updateBalance uid nb => updateBalance db uid nb
  | .createTxn uid ty a wa nid now => createTransaction db uid ty a wa nid now
  | .approveTx tid now => approveTransaction db tid now
  | .denyTx tid => denyTransaction db tid
  | .updateProfile uid un em => updateProfile db uid un em
  | .changePassword uid c n cf => changePassword db uid c n cf
  | .resetPassword e np => resetPassword db e np

/-- A demo store for concrete evaluations: one approved user `u1` with
balance 100. -/
def demoDb : Db :=
  { users := [{ id := "u1", email := "user@example.com", password := "pw123456",
                username := "Demo User", userType := "user",
                status := "approved", balance := 100, createdAt := 0 }],
    txns := [] }

example :
    (createTransaction demoDb "u1" "withdraw" 40 (some "addr123456") "t1" 5).map
      (fun db => (balOf db "u1", txnStatus db "t1")) =
    .ok (some 60, some "pending") := by
  norm_num [createTransaction, demoDb, findUser, saveUser, balOf, txnStatus,
    findTxn, isBlank, List.find?]
  decide

/-! ### Generic lemmas about `find?` over the document-store operations -/

/-- `find?` by key over a save-by-key map: the lookup result is replaced
exactly when the saved document's key is the one looked up. -/
theorem find?_map_save {α : Type} (key : α → String) (x : α) (k : String) :
    ∀ l : List α,
      (l.map (fun v => if key v = key x then x else v)).find?
          (fun v => key v = k) =
        if key x = k then (l.find? (fun v => key v = k)).map (fun _ => x)
        else l.find? (fun v => key v = k) := by
  intro l
  induction l with
  | nil => simp
  | cons v l ih =>
    by_cases h1 : key v = key x
    · by_cases h2 : key x = k
      · simp [List.find?, h1, h2, h1.trans h2]
      · have h3 : ¬ key v = k := fun hc => h2 (h1 ▸ hc)
        simp only [List.map_cons, List.find?, h1, if_pos rfl] at *
        simp [List.find?, h2, h3, ih]
    · by_cases h3 : key v = k
      · have h2 : ¬ key x = k := fun hc => h1 (h3.trans hc.symm)
        have h1' : ¬ k = key x := fun hc => h1 (h3.trans hc)
        simp [List.find?, h3, h1', h2]
      · simp [List.find?, h1, h3, ih]

/-- Appending a document whose key is fresh for `l`: looking up that key
finds exactly the appended document. -/
theorem find?_append_fresh {α : Type} (key : α → String) (x : α) (k : String) :
    ∀ l : List α, (∀ y ∈ l, key y ≠ k) →
      (l ++ [x]).find? (fun v => key v = k) =
        if key x = k then some x else none := by
  intro l
  induction l with
  | nil =>
    intro _
    by_cases h : key x = k <;> simp [List.find?, h]
  | cons v l ih =>
    intro h
    have hv : ¬ key v = k := h v (List.mem_cons_self v l)
    have hrest := ih (fun y hy => h y (List.mem_cons_of_mem v hy))
    simpa [List.find?, hv] using hrest

/-- Appending a document does not change a lookup that already succeeds. -/
theorem find?_append_left {α : Type} (p : α → Bool) (x a : α) :
    ∀ l : List α, l.find? p = some a → (l ++ [x]).find? p = some a := by
  intro l
  induction l with
  | nil => intro h; simp [List.find?] at h
  | cons v l ih =>
    intro h
    by_cases hv : p v
    · simp only [List.find?, hv, if_pos] at h ⊢
      simpa [List.find?, hv] using h
    · simp only [List.cons_append, List.find?] at h ⊢
      rw [Bool.not_eq_true] at hv
      rw [hv] at h ⊢
      exact ih h

/-- A successful `find?` by key returns a document carrying that key. -/
theorem key_of_find? {α : Type} {key : α → String} {l : List α} {k : String}
    {a : α} (h : l.find? (fun v => key v = k) = some a) : key a = k := by
  have := List.find?_some h
  simpa using this

/-- Looking up a user after `saveUser`. -/
theorem findUser_saveUser (db : Db) (x : User) (uid : String) :
    findUser (saveUser db x) uid =
      if x.id = uid then (findUser db uid).map (fun _ => x)
      else findUser db uid :=
  find?_map_save (fun u : User => u.id) x uid db.users

/-- Looking up a transaction after `saveTxn`. -/
theorem findTxn_saveTxn (db : Db) (x : Transaction) (tid : String) :
    findTxn (saveTxn db x) tid =
      if x.id = tid then (findTxn db tid).map (fun _ => x)
      else findTxn db tid :=
  find?_map_save (fun t : Transaction => t.id) x tid db.txns

/-- `saveUser` leaves the transaction collection untouched. -/
theorem findTxn_saveUser (db : Db) (x : User) (tid : String) :
    findTxn (saveUser db x) tid = findTxn db tid := rfl

/-- `saveTxn` leaves the user collection untouched. -/
theorem findUser_saveTxn (db : Db) (x : Transaction) (uid : String) :
    findUser (saveTxn db x) uid = findUser db uid := rfl

/-- `insertTxn` leaves the user collection untouched. -/
theorem balOf_insertTxn (db : Db) (t : Transaction) (uid : String) :
    balOf (insertTxn db t) uid = balOf db uid := rfl

/-- `saveTxn` leaves every balance untouched. -/
theorem balOf_saveTxn (db : Db) (t : Transaction) (uid : String) :
    balOf (saveTxn db t) uid = balOf db uid := rfl

/-- `saveUser` leaves every transaction status untouched. -/
theorem txnStatus_saveUser (db : Db) (x : User) (tid : String) :
    txnStatus (saveUser db x) tid = txnStatus db tid := rfl

/-- The balance lookup after `saveUser`. -/
theorem balOf_saveUser (db : Db) (x : User) (uid : String) :
    balOf (saveUser db x) uid =
      if x.id = uid then (balOf db uid).map (fun _ => x.balance)
      else balOf db uid := by
  unfold balOf
  rw [findUser_saveUser]
  split_ifs <;> simp only [Option.map_map] <;> rfl

/-- The status lookup after `saveTxn`. -/
theorem txnStatus_saveTxn (db : Db) (x : Transaction) (tid : String) :
    txnStatus (saveTxn db x) tid =
      if x.id = tid then (txnStatus db tid).map (fun _ => x.status)
      else txnStatus db tid := by
  unfold txnStatus
  rw [findTxn_saveTxn]
  split_ifs <;> simp only [Option.map_map] <;> rfl

/-- The `approvedAt` lookup after `saveTxn`. -/
theorem approvedAtOf_saveTxn (db : Db) (x : Transaction) (tid : String) :
    approvedAtOf (saveTxn db x) tid =
      if x.id = tid then (approvedAtOf db tid).map (fun _ => x.approvedAt)
      else approvedAtOf db tid := by
  unfold approvedAtOf
  rw [findTxn_saveTxn]
  split_ifs <;> simp only [Option.map_map] <;> rfl

/-- `saveUser` leaves every `approvedAt` stamp untouched. -/
theorem approvedAtOf_saveUser (db : Db) (x : User) (tid : String) :
    approvedAtOf (saveUser db x) tid = approvedAtOf db tid := rfl

/-- Looking up a freshly inserted transaction. -/
theorem findTxn_insertTxn_fresh (db : Db) (t : Transaction) (tid : String)
    (h : ∀ y ∈ db.txns, y.id ≠ tid) :
    findTxn (insertTxn db t) tid = if t.id = tid then some t else none :=
  find?_append_fresh (fun s : Transaction => s.id) t tid db.txns h

/-- Inserting a transaction does not change a lookup that already
succeeds. -/
theorem findTxn_insertTxn_left (db : Db) (t s : Transaction) (tid : String)
    (h : findTxn db tid = some s) : findTxn (insertTxn db t) tid = some s :=
  find?_append_left _ t s db.txns h

/-- Inserting a user does not change a lookup that already succeeds. -/
theorem findUser_insertUser_left (db : Db) (u w : User) (uid : String)
    (h : findUser db uid = some w) : findUser (insertUser db u) uid = some w :=
  find?_append_left _ u w db.users h

/-! ### C2: withdrawal creation -/

/-- **C2.** For every `Create(withdraw, amount, address)` on an existing
user (with a valid positive amount and a non-blank address): if the
balance is at least the amount, the balance is debited by the amount
immediately and a pending withdrawal transaction holding the address is
created; if the balance is less than the amount, the request is rejected
(an `.error` response, which in this embedding carries no mutation — in
the source the rejection happens before any `save()`). -/
theorem createWithdraw_correct (db : Db) (uid wa nid : String) (a : ℚ)
    (now : Nat) (u : User)
    (hu : findUser db uid = some u) (ha : 0 < a) (hwa : isBlank wa = false)
    (hfresh : ∀ t ∈ db.txns, t.id ≠ nid) :
    (a ≤ u.balance →
      ∃ db', createTransaction db uid "withdraw" a (some wa) nid now = .ok db' ∧
        balOf db' uid = some (u.balance - a) ∧
        findTxn db' nid =
          some { id := nid, userId := uid, type := "withdraw", amount := a,
                 status := "pending", date := now, approvedAt := none,
                 walletAddress := some wa }) ∧
    (u.balance < a →
      createTransaction db uid "withdraw" a (some wa) nid now =
        .error "Insufficient balance for withdrawal.") := by
  have hu' : db.users.find? (fun v => v.id = uid) = some u := hu
  have hid : u.id = uid := key_of_find? hu'
  constructor
  · intro hab
    refine ⟨insertTxn (saveUser db { u with balance := u.balance - a })
      { id := nid, userId := uid, type := "withdraw", amount := a,
        status := "pending", date := now, approvedAt := none,
        walletAddress := some wa }, ?_, ?_, ?_⟩
    · simp [createTransaction, hu, if_neg (not_le.mpr ha), hwa,
        if_neg (not_lt.mpr hab)]
    · rw [balOf_insertTxn, balOf_saveUser]
      simp [hid, balOf, hu]
    · rw [findTxn_insertTxn_fresh]
      · simp
      · exact hfresh
  · intro hab
    simp [createTransaction, hu, if_neg (not_le.mpr ha), hwa, hab]

/-- Witness for C2 at a concrete store: user `u1` with balance 100,
withdrawing 40 to address `addr123456` under fresh transaction id `t1`. -/
theorem createWithdraw_correct_witness :
    ((40:ℚ) ≤ 100 →
      ∃ db', createTransaction demoDb "u1" "withdraw" 40 (some "addr123456")
          "t1" 5 = .ok db' ∧
        balOf db' "u1" = some (100 - 40) ∧
        findTxn db' "t1" =
          some { id := "t1", userId := "u1", type := "withdraw", amount := 40,
                 status := "pending", date := 5, approvedAt := none,
                 walletAddress := some "addr123456" }) ∧
    ((100:ℚ) < 40 →
      createTransaction demoDb "u1" "withdraw" 40 (some "addr123456") "t1" 5 =
        .error "Insufficient balance for withdrawal.") :=
  createWithdraw_correct demoDb "u1" "addr123456" "t1" 40 5
    { id := "u1", email := "user@example.com", password := "pw123456",
      username := "Demo User", userType := "user", status := "approved",
      balance := 100, createdAt := 0 }
    (by decide) (by decide) (by decide) (by decide)

/-- `insertTxn` leaves the user collection untouched (lookup form). -/
theorem findUser_insertTxn (db : Db) (t : Transaction) (uid : String) :
    findUser (insertTxn db t) uid = findUser db uid := rfl

/-- `insertUser` leaves the transaction collection untouched. -/
theorem findTxn_insertUser (db : Db) (u : User) (tid : String) :
    findTxn (insertUser db u) tid = findTxn db tid := rfl

/-! ### C3: withdrawal escrow / denial symmetry -/

/-- **C3.** For every user with balance `b` and every valid withdrawal of
amount `a ≤ b`: `Create(withdraw, a, address)` followed by `Deny` of that
transaction restores the balance to exactly `b` (the refund equals the
escrow debit) and leaves the transaction in status "failed". -/
theorem withdraw_deny_restores (db : Db) (uid wa nid : String) (a : ℚ)
    (now : Nat) (u : User)
    (hu : findUser db uid = some u) (ha : 0 < a) (hab : a ≤ u.balance)
    (hwa : isBlank wa = false)
    (hfresh : ∀ t ∈ db.txns, t.id ≠ nid) :
    ∃ db1 db2,
      createTransaction db uid "withdraw" a (some wa) nid now = .ok db1 ∧
      denyTransaction db1 nid = .ok db2 ∧
      balOf db2 uid = some u.balance ∧
      txnStatus db2 nid = some "failed" := by
  have hu' : db.users.find? (fun v => v.id = uid) = some u := hu
  have hid : u.id = uid := key_of_find? hu'
  set T : Transaction :=
    { id := nid, userId := uid, type := "withdraw", amount := a,
      status := "pending", date := now, approvedAt := none,
      walletAddress := some wa } with hTdef
  set u1 : User := { u with balance := u.balance - a } with hu1def
  set db1 : Db := insertTxn (saveUser db u1) T with hdb1def
  have hcreate : createTransaction db uid "withdraw" a (some wa) nid now =
      .ok db1 := by
    simp [createTransaction, hu, if_neg (not_le.mpr ha), hwa,
      if_neg (not_lt.mpr hab), hdb1def, hu1def, hTdef]
  have hT : findTxn db1 nid = some T := by
    rw [hdb1def, findTxn_insertTxn_fresh]
    · simp [hTdef]
    · exact hfresh
  have hU1 : findUser db1 uid = some u1 := by
    rw [hdb1def, findUser_insertTxn, findUser_saveUser]
    have : u1.id = uid := by rw [hu1def]; exact hid
    rw [if_pos this, hu]
    rfl
  have hdeny : denyTransaction db1 nid =
      .ok (saveTxn (saveUser db1 { u1 with balance := u1.balance + a })
        { T with status := "failed" }) := by
    simp only [denyTransaction, hT, hU1]
    simp [hTdef]
  refine ⟨db1, _, hcreate, hdeny, ?_, ?_⟩
  · rw [balOf_saveTxn, balOf_saveUser]
    have hix : ({ u1 with balance := u1.balance + a } : User).id = uid := by
      rw [hu1def]; exact hid
    rw [if_pos hix]
    have hb1 : balOf db1 uid = some u1.balance := by
      rw [balOf, hU1]; rfl
    rw [hb1]
    simp [hu1def]
  · rw [txnStatus_saveTxn]
    have hix : ({ T with status := "failed" } : Transaction).id = nid := by
      rw [hTdef]
    rw [if_pos hix]
    have hs1 : txnStatus db1 nid = some T.status := by
      rw [txnStatus, hT]
      rfl
    rw [txnStatus_saveUser, hs1]
    rfl

/-- Witness for C3: balance 100, withdraw 40, deny; balance is 100 again
and the transaction is "failed". -/
theorem withdraw_deny_restores_witness :
    ∃ db1 db2,
      createTransaction demoDb "u1" "withdraw" 40 (some "addr123456") "t1" 5 =
        .ok db1 ∧
      denyTransaction db1 "t1" = .ok db2 ∧
      balOf db2 "u1" = some 100 ∧
      txnStatus db2 "t1" = some "failed" :=
  withdraw_deny_restores demoDb "u1" "addr123456" "t1" 40 5
    { id := "u1", email := "user@example.com", password := "pw123456",
      username := "Demo User", userType := "user", status := "approved",
      balance := 100, createdAt := 0 }
    (by decide) (by decide) (by decide) (by decide) (by decide)

/-! ### C4, C5, C8: the approval paths per transaction kind -/

/-- **C4.** For every pending withdrawal transaction, `Approve` performs
no balance change on the owning user (the amount was already escrowed at
creation): the balance after `Approve` equals the balance immediately
before, while the transaction becomes "complete". -/
theorem approveWithdraw_frame (db : Db) (tid : String) (now : Nat)
    (t : Transaction) (u : User)
    (ht : findTxn db tid = some t) (hst : t.status = "pending")
    (hty : t.type = "withdraw") (hu : findUser db t.userId = some u) :
    ∃ db', approveTransaction db tid now = .ok db' ∧
      balOf db' t.userId = some u.balance ∧
      txnStatus db' tid = some "complete" ∧
      approvedAtOf db' tid = some (some now) := by
  have ht' : db.txns.find? (fun s => s.id = tid) = some t := ht
  have htid : t.id = tid := key_of_find? ht'
  have hu' : db.users.find? (fun v => v.id = t.userId) = some u := hu
  have huid : u.id = t.userId := key_of_find? hu'
  have happrove : approveTransaction db tid now =
      .ok (saveTxn (saveUser db u)
        { t with status := "complete", approvedAt := some now }) := by
    simp [approveTransaction, ht, hst, hty, hu]
  refine ⟨_, happrove, ?_, ?_, ?_⟩
  · rw [balOf_saveTxn, balOf_saveUser, if_pos huid]
    simp [balOf, hu]
  · rw [txnStatus_saveTxn,
      if_pos (show ({ t with status := "complete", approvedAt := some now } :
        Transaction).id = tid from htid), txnStatus_saveUser]
    simp [txnStatus, ht]
  · rw [approvedAtOf_saveTxn,
      if_pos (show ({ t with status := "complete", approvedAt := some now } :
        Transaction).id = tid from htid), approvedAtOf_saveUser]
    simp [approvedAtOf, ht]

/-- A store with a pending withdrawal: user `u1` has balance 60 (40
already escrowed out of an initial 100), transaction `t1` is the pending
withdrawal of 40. -/
def withdrawPendingDb : Db :=
  { users := [{ id := "u1", email := "user@example.com",
                password := "pw123456", username := "Demo User",
                userType := "user", status := "approved", balance := 60,
                createdAt := 0 }],
    txns := [{ id := "t1", userId := "u1", type := "withdraw", amount := 40,
               status := "pending", date := 5, approvedAt := none,
               walletAddress := some "addr123456" }] }

/-- Witness for C4: approving the pending withdrawal leaves balance 60
and completes the transaction. -/
theorem approveWithdraw_frame_witness :
    ∃ db', approveTransaction withdrawPendingDb "t1" 9 = .ok db' ∧
      balOf db' "u1" = some 60 ∧
      txnStatus db' "t1" = some "complete" ∧
      approvedAtOf db' "t1" = some (some 9) :=
  approveWithdraw_frame withdrawPendingDb "t1" 9
    { id := "t1", userId := "u1", type := "withdraw", amount := 40,
      status := "pending", date := 5, approvedAt := none,
      walletAddress := some "addr123456" }
    { id := "u1", email := "user@example.com", password := "pw123456",
      username := "Demo User", userType := "user", status := "approved",
      balance := 60, createdAt := 0 }
    (by decide) (by decide) (by decide) (by decide)

/-- **C5.** For every pending buy transaction: if the owning user's
balance is less than the amount at approval time, `Approve` rejects (and,
the rejection being an early return, leaves balance and status
unchanged); if the balance is sufficient, `Approve` debits exactly the
amount and marks the transaction "complete". -/
theorem approveBuy_sufficiency (db : Db) (tid : String) (now : Nat)
    (t : Transaction) (u : User)
    (ht : findTxn db tid = some t) (hst : t.status = "pending")
    (hty : t.type = "buy") (hu : findUser db t.userId = some u) :
    (u.balance < t.amount →
      approveTransaction db tid now =
        .error "Insufficient balance to approve transaction.") ∧
    (t.amount ≤ u.balance →
      ∃ db', approveTransaction db tid now = .ok db' ∧
        balOf db' t.userId = some (u.balance - t.amount) ∧
        txnStatus db' tid = some "complete") := by
  have ht' : db.txns.find? (fun s => s.id = tid) = some t := ht
  have htid : t.id = tid := key_of_find? ht'
  have hu' : db.users.find? (fun v => v.id = t.userId) = some u := hu
  have huid : u.id = t.userId := key_of_find? hu'
  constructor
  · intro hlt
    simp [approveTransaction, ht, hst, hty, hu, hlt]
  · intro hle
    have happrove : approveTransaction db tid now =
        .ok (saveTxn (saveUser db { u with balance := u.balance - t.amount })
          { t with status := "complete", approvedAt := some now }) := by
      simp [approveTransaction, ht, hst, hty, hu, if_neg (not_lt.mpr hle)]
    refine ⟨_, happrove, ?_, ?_⟩
    · rw [balOf_saveTxn, balOf_saveUser,
        if_pos (show ({ u with balance := u.balance - t.amount } :
          User).id = t.userId from huid)]
      simp [balOf, hu]
    · rw [txnStatus_saveTxn,
        if_pos (show ({ t with status := "complete", approvedAt := some now } :
          Transaction).id = tid from htid), txnStatus_saveUser]
      simp [txnStatus, ht]

/-- A store with a pending buy of 80 by user `u1` whose balance is
only 50. -/
def buyPendingPoorDb : Db :=
  { users := [{ id := "u1", email := "user@example.com",
                password := "pw123456", username := "Demo User",
                userType := "user", status := "approved", balance := 50,
                createdAt := 0 }],
    txns := [{ id := "t1", userId := "u1", type := "buy", amount := 80,
               status := "pending", date := 5, approvedAt := none,
               walletAddress := none }] }

/-- A store with a pending buy of 80 by user `u1` whose balance is 100. -/
def buyPendingRichDb : Db :=
  { users := [{ id := "u1", email := "user@example.com",
                password := "pw123456", username := "Demo User",
                userType := "user", status := "approved", balance := 100,
                createdAt := 0 }],
    txns := [{ id := "t2", userId := "u1", type := "buy", amount := 80,
               status := "pending", date := 5, approvedAt := none,
               walletAddress := none }] }

/-- Witness for C5, both branches: balance 50 < 80 rejects; balance
100 ≥ 80 debits to 20 and completes. -/
theorem approveBuy_sufficiency_witness :
    (approveTransaction buyPendingPoorDb "t1" 9 =
      .error "Insufficient balance to approve transaction.") ∧
    (∃ db', approveTransaction buyPendingRichDb "t2" 9 = .ok db' ∧
      balOf db' "u1" = some (100 - 80) ∧
      txnStatus db' "t2" = some "complete") :=
  ⟨(approveBuy_sufficiency buyPendingPoorDb "t1" 9
      { id := "t1", userId := "u1", type := "buy", amount := 80,
        status := "pending", date := 5, approvedAt := none,
        walletAddress := none }
      { id := "u1", email := "user@example.com", password := "pw123456",
        username := "Demo User", userType := "user", status := "approved",
        balance := 50, createdAt := 0 }
      (by decide) (by decide) (by decide) (by decide)).1 (by decide),
   (approveBuy_sufficiency buyPendingRichDb "t2" 9
      { id := "t2", userId := "u1", type := "buy", amount := 80,
        status := "pending", date := 5, approvedAt := none,
        walletAddress := none }
      { id := "u1", email := "user@example.com", password := "pw123456",
        username := "Demo User", userType := "user", status := "approved",
        balance := 100, createdAt := 0 }
      (by decide) (by decide) (by decide) (by decide)).2 (by decide)⟩

/-- Denial never touches the `approvedAt` stamp of any transaction
(`deny-transaction` sets only `status`). -/
theorem deny_preserves_approvedAt (db : Db) (tid : String) (db' : Db)
    (hdeny : denyTransaction db tid = .ok db') (tid3 : String) :
    approvedAtOf db' tid3 = approvedAtOf db tid3 := by
  unfold denyTransaction at hdeny
  split at hdeny
  · exact Except.noConfusion hdeny
  next t hfind =>
    split at hdeny
    · exact Except.noConfusion hdeny
    next hstat =>
      split at hdeny
      · exact Except.noConfusion hdeny
      next u hfu =>
        simp only [Except.ok.injEq] at hdeny
        rw [← hdeny, approvedAtOf_saveTxn, approvedAtOf_saveUser]
        split_ifs with hcase
        · have ht' : db.txns.find? (fun s => s.id = tid) = some t := hfind
          have htid : t.id = tid := key_of_find? ht'
          have htid3 : t.id = tid3 := hcase
          have hfind3 : findTxn db tid3 = some t := by
            rw [← htid3]
            rw [← htid] at ht'
            exact ht'
          rw [approvedAtOf, hfind3]
          rfl
        · rfl

/-- **C8.** For every pending deposit transaction, `Approve` credits
exactly the transaction amount to the owning user's balance, transitions
the transaction to "complete", and stamps the approval timestamp; the
stamp is set only on completion — `Deny` never sets it. -/
theorem approveDeposit_credit (db : Db) (tid : String) (now : Nat)
    (t : Transaction) (u : User)
    (ht : findTxn db tid = some t) (hst : t.status = "pending")
    (hty : t.type = "deposit") (hu : findUser db t.userId = some u) :
    (∃ db', approveTransaction db tid now = .ok db' ∧
      balOf db' t.userId = some (u.balance + t.amount) ∧
      txnStatus db' tid = some "complete" ∧
      approvedAtOf db' tid = some (some now)) ∧
    (∀ db2 tid2 db2', denyTransaction db2 tid2 = .ok db2' →
      ∀ tid3, approvedAtOf db2' tid3 = approvedAtOf db2 tid3) := by
  have ht' : db.txns.find? (fun s => s.id = tid) = some t := ht
  have htid : t.id = tid := key_of_find? ht'
  have hu' : db.users.find? (fun v => v.id = t.userId) = some u := hu
  have huid : u.id = t.userId := key_of_find? hu'
  constructor
  · have happrove : approveTransaction db tid now =
        .ok (saveTxn (saveUser db { u with balance := u.balance + t.amount })
          { t with status := "complete", approvedAt := some now }) := by
      simp [approveTransaction, ht, hst, hty, hu]
    refine ⟨_, happrove, ?_, ?_, ?_⟩
    · rw [balOf_saveTxn, balOf_saveUser,
        if_pos (show ({ u with balance := u.balance + t.amount } :
          User).id = t.userId from huid)]
      simp [balOf, hu]
    · rw [txnStatus_saveTxn,
        if_pos (show ({ t with status := "complete", approvedAt := some now } :
          Transaction).id = tid from htid), txnStatus_saveUser]
      simp [txnStatus, ht]
    · rw [approvedAtOf_saveTxn,
        if_pos (show ({ t with status := "complete", approvedAt := some now } :
          Transaction).id = tid from htid), approvedAtOf_saveUser]
      simp [approvedAtOf, ht]
  · exact fun db2 tid2 db2' hd => deny_preserves_approvedAt db2 tid2 db2' hd

/-- A store with a pending deposit of 25 by user `u1` whose balance
is 50 (the spec's scenario). -/
def depositPendingDb : Db :=
  { users := [{ id := "u1", email := "user@example.com",
                password := "pw123456", username := "Demo User",
                userType := "user", status := "approved", balance := 50,
                createdAt := 0 }],
    txns := [{ id := "t1", userId := "u1", type := "deposit", amount := 25,
               status := "pending", date := 5, approvedAt := none,
               walletAddress := none }] }

/-- Witness for C8: approving the pending deposit of 25 on balance 50
yields balance 50 + 25, status "complete" and the stamp. -/
theorem approveDeposit_credit_witness :
    (∃ db', approveTransaction depositPendingDb "t1" 9 = .ok db' ∧
      balOf db' "u1" = some (50 + 25) ∧
      txnStatus db' "t1" = some "complete" ∧
      approvedAtOf db' "t1" = some (some 9)) ∧
    (∀ db2 tid2 db2', denyTransaction db2 tid2 = .ok db2' →
      ∀ tid3, approvedAtOf db2' tid3 = approvedAtOf db2 tid3) :=
  approveDeposit_credit depositPendingDb "t1" 9
    { id := "t1", userId := "u1", type := "deposit", amount := 25,
      status := "pending", date := 5, approvedAt := none,
      walletAddress := none }
    { id := "u1", email := "user@example.com", password := "pw123456",
      username := "Demo User", userType := "user", status := "approved",
      balance := 50, createdAt := 0 }
    (by decide) (by decide) (by decide) (by decide)

/-! ### C1: terminal-state enforcement -/

/-- A store in which transaction `t1` (a deposit of 25 by `u1`, balance
50) has already been denied: its status is "failed". -/
def failedDepositDb : Db :=
  { users := [{ id := "u1", email := "user@example.com",
                password := "pw123456", username := "Demo User",
                userType := "user", status := "approved", balance := 50,
                createdAt := 0 }],
    txns := [{ id := "t1", userId := "u1", type := "deposit", amount := 25,
               status := "failed", date := 5, approvedAt := none,
               walletAddress := none }] }

/-- **C1.** The guard in `approve-transaction` checks only
`status === 'complete'`, not "terminal": on a transaction already in the
terminal state "failed" (here: a denied deposit), `Deny` correctly
rejects, but `Approve` is accepted — it credits the amount (balance 50
becomes 75) and flips the status from "failed" to "complete", so the
transaction does not transition exactly once to a terminal state. -/
theorem approve_after_deny_mutates :
    txnStatus failedDepositDb "t1" = some "failed" ∧
    balOf failedDepositDb "u1" = some 50 ∧
    denyTransaction failedDepositDb "t1" =
      .error "Only pending transactions can be denied." ∧
    (approveTransaction failedDepositDb "t1" 9).map
      (fun d => (balOf d "u1", txnStatus d "t1")) =
      .ok (some 75, some "complete") := by
  refine ⟨by decide, by decide, by decide, ?_⟩
  norm_num [approveTransaction, failedDepositDb, findTxn, findUser, saveTxn,
    saveUser, balOf, txnStatus, List.find?]
  decide

/-! ### C9: creation-time validation -/

/-- **C9.** For every create request: a non-positive amount, a withdrawal
with a missing or blank address, or a nonexistent user is rejected with
an `.error` (which in this embedding — as in the source, where these
returns precede every `save()` — carries no mutation: no transaction
record is created and no balance is changed). -/
theorem create_validation_rejects (db : Db) (uid ty : String) (a : ℚ)
    (wa : Option String) (nid : String) (now : Nat) :
    (a ≤ 0 → createTransaction db uid ty a wa nid now =
      .error "Invalid transaction amount.") ∧
    (0 < a → findUser db uid = none →
      createTransaction db uid ty a wa nid now = .error "User not found.") ∧
    (0 < a → ty = "withdraw" → wa.elim true isBlank = true →
      (findUser db uid).isSome = true →
      createTransaction db uid ty a wa nid now =
        .error "Wallet address is required for withdrawal.") := by
  refine ⟨?_, ?_, ?_⟩
  · intro hle
    simp [createTransaction, hle]
  · intro ha hnone
    simp [createTransaction, if_neg (not_le.mpr ha), hnone]
  · intro ha hty hwa hsome
    obtain ⟨u, hu⟩ := Option.isSome_iff_exists.mp hsome
    cases wa with
    | none => simp [createTransaction, if_neg (not_le.mpr ha), hu, hty]
    | some s =>
      have hbl : isBlank s = true := hwa
      simp [createTransaction, if_neg (not_le.mpr ha), hu, hty, hbl]

/-- Witness for C9, all three rejection cases at concrete inputs:
a non-positive amount, an unknown user, and a blank withdrawal address. -/
theorem create_validation_rejects_witness :
    (createTransaction demoDb "u1" "deposit" (-1) none "t9" 0 =
      .error "Invalid transaction amount.") ∧
    (createTransaction demoDb "nobody" "deposit" 5 none "t9" 0 =
      .error "User not found.") ∧
    (createTransaction demoDb "u1" "withdraw" 5 (some "   ") "t9" 0 =
      .error "Wallet address is required for withdrawal.") :=
  ⟨(create_validation_rejects demoDb "u1" "deposit" (-1) none "t9" 0).1
      (by decide),
   (create_validation_rejects demoDb "nobody" "deposit" 5 none "t9" 0).2.1
      (by decide) (by decide),
   (create_validation_rejects demoDb "u1" "withdraw" 5 (some "   ") "t9" 0).2.2
      (by decide) rfl (by decide) (by decide)⟩

/-! ### C6: non-negativity of balances -/

/-- The ledger invariant: every stored balance is non-negative and every
stored transaction amount is positive (the latter is established at
creation, where `value <= 0` is rejected, and is needed for the credit
cases). -/
def LedgerInv (db : Db) : Prop :=
  (∀ u ∈ db.users, 0 ≤ u.balance) ∧ (∀ t ∈ db.txns, 0 < t.amount)

/-- Saving a user with a non-negative balance preserves non-negativity of
all stored balances. -/
theorem usersNonneg_save {l : List User} {x : User}
    (h : ∀ u ∈ l, 0 ≤ u.balance) (hx : 0 ≤ x.balance) :
    ∀ u ∈ l.map (fun v => if v.id = x.id then x else v), 0 ≤ u.balance := by
  intro u hu
  obtain ⟨v, hv, rfl⟩ := List.mem_map.mp hu
  by_cases hc : v.id = x.id
  · simpa [hc] using hx
  · simpa [hc] using h v hv

/-- Saving a transaction with a positive amount preserves positivity of
all stored amounts. -/
theorem txnsPos_save {l : List Transaction} {x : Transaction}
    (h : ∀ t ∈ l, 0 < t.amount) (hx : 0 < x.amount) :
    ∀ t ∈ l.map (fun s => if s.id = x.id then x else s), 0 < t.amount := by
  intro t ht
  obtain ⟨s, hs, rfl⟩ := List.mem_map.mp ht
  by_cases hc : s.id = x.id
  · simpa [hc] using hx
  · simpa [hc] using h s hs

/-- **C6.** Every state-mutating request preserves the ledger invariant:
starting from a store in which all balances are non-negative (and all
recorded amounts positive, as creation guarantees), no successful
operation — creation of any kind, approval, denial, or the admin balance
edit — ever drives a balance negative, because every debit is guarded by
a sufficiency check. -/
theorem ledger_inv_preserved (op : ServerOp) (db db' : Db)
    (hinv : LedgerInv db) (hok : applyOp op db = .ok db') : LedgerInv db' := by
  obtain ⟨hbal, hamt⟩ := hinv
  cases op with
  | register e p un nid now =>
    simp only [applyOp, registerUser] at hok
    split at hok
    · exact Except.noConfusion hok
    split at hok
    · exact Except.noConfusion hok
    simp only [Except.ok.injEq] at hok
    subst hok
    refine ⟨?_, hamt⟩
    intro u hu
    simp only [insertUser, List.mem_append, List.mem_singleton] at hu
    rcases hu with hu | rfl
    · exact hbal u hu
    · norm_num
  | approveUser uid =>
    simp only [applyOp, approveUser] at hok
    split at hok
    · exact Except.noConfusion hok
    next u hu =>
      simp only [Except.ok.injEq] at hok
      subst hok
      have hu' : db.users.find? (fun v => v.id = uid) = some u := hu
      exact ⟨usersNonneg_save hbal (hbal u (List.mem_of_find?_eq_some hu')),
        hamt⟩
  | updateBalance uid nb =>
    simp only [applyOp, updateBalance] at hok
    split at hok
    · exact Except.noConfusion hok
    next hnb =>
      split at hok
      · exact Except.noConfusion hok
      next u hu =>
        simp only [Except.ok.injEq] at hok
        subst hok
        exact ⟨usersNonneg_save hbal (not_lt.mp hnb), hamt⟩
  | createTxn uid ty a wa nid now =>
    simp only [applyOp, createTransaction] at hok
    split at hok
    · exact Except.noConfusion hok
    next hle =>
      split at hok
      · exact Except.noConfusion hok
      next user huser =>
        split at hok
        · -- withdrawal branch
          split at hok
          · exact Except.noConfusion hok
          next s =>
            split at hok
            · exact Except.noConfusion hok
            split at hok
            · exact Except.noConfusion hok
            next hblt =>
              simp only [Except.ok.injEq] at hok
              subst hok
              refine ⟨usersNonneg_save hbal (sub_nonneg.mpr (not_lt.mp hblt)),
                ?_⟩
              intro t ht
              rcases List.mem_append.mp ht with h | h
              · exact hamt t h
              · rw [List.mem_singleton] at h
                subst h
                exact not_le.mp hle
        · -- deposit / buy branch
          simp only [Except.ok.injEq] at hok
          subst hok
          refine ⟨hbal, ?_⟩
          intro t ht
          rcases List.mem_append.mp ht with h | h
          · exact hamt t h
          · rw [List.mem_singleton] at h
            subst h
            exact not_le.mp hle
  | approveTx tid now =>
    simp only [applyOp, approveTransaction] at hok
    split at hok
    · exact Except.noConfusion hok
    next t htf =>
      split at hok
      · exact Except.noConfusion hok
      next hstat =>
        split at hok
        · exact Except.noConfusion hok
        next u huf =>
          have htf' : db.txns.find? (fun s => s.id = tid) = some t := htf
          have huf' : db.users.find? (fun v => v.id = t.userId) = some u := huf
          have htamt : 0 < t.amount := hamt t (List.mem_of_find?_eq_some htf')
          have hub : 0 ≤ u.balance := hbal u (List.mem_of_find?_eq_some huf')
          split at hok
          · -- deposit: credit
            simp only [Except.ok.injEq] at hok
            subst hok
            exact ⟨usersNonneg_save hbal (add_nonneg hub htamt.le),
              txnsPos_save hamt htamt⟩
          · split at hok
            · -- buy: guarded debit
              split at hok
              · exact Except.noConfusion hok
              next hblt =>
                simp only [Except.ok.injEq] at hok
                subst hok
                exact ⟨usersNonneg_save hbal (sub_nonneg.mpr (not_lt.mp hblt)),
                  txnsPos_save hamt htamt⟩
            · -- withdrawal (or any other kind): no balance change
              simp only [Except.ok.injEq] at hok
              subst hok
              exact ⟨usersNonneg_save hbal hub, txnsPos_save hamt htamt⟩
  | denyTx tid =>
    simp only [applyOp, denyTransaction] at hok
    split at hok
    · exact Except.noConfusion hok
    next t htf =>
      split at hok
      · exact Except.noConfusion hok
      next hstat =>
        split at hok
        · exact Except.noConfusion hok
        next u huf =>
          have htf' : db.txns.find? (fun s => s.id = tid) = some t := htf
          have huf' : db.users.find? (fun v => v.id = t.userId) = some u := huf
          have htamt : 0 < t.amount := hamt t (List.mem_of_find?_eq_some htf')
          have hub : 0 ≤ u.balance := hbal u (List.mem_of_find?_eq_some huf')
          simp only [Except.ok.injEq] at hok
          subst hok
          refine ⟨usersNonneg_save hbal ?_, txnsPos_save hamt htamt⟩
          split
      
    
          · exact add_nonneg hub htamt.le
          · exact hub
  | updateProfile uid un em =>
    simp only [applyOp, updateProfile] at hok
    split at hok
    · exact Except.noConfusion hok
    split at hok
    · exact Except.noConfusion hok
    next u hu =>
      have hu' : db.users.find? (fun v => v.id = uid) = some u := hu
      have hub : 0 ≤ u.balance := hbal u (List.mem_of_find?_eq_some hu')
      split at hok
      · split at hok
        · exact Except.noConfusion hok
        · simp only [Except.ok.injEq] at hok
          subst hok
          exact ⟨usersNonneg_save hbal hub, hamt⟩
      · simp only [Except.ok.injEq] at hok
        subst hok
        exact ⟨usersNonneg_save hbal hub, hamt⟩
  | changePassword uid c n cf =>
    simp only [applyOp, changePassword] at hok
    split at hok
    · exact Except.noConfusion hok
    split at hok
    · exact Except.noConfusion hok
    split at hok
    · exact Except.noConfusion hok
    split at hok
    · exact Except.noConfusion hok
    next u hu =>
      split at hok
      · exact Except.noConfusion hok
      simp only [Except.ok.injEq] at hok
      subst hok
      have hu' : db.users.find? (fun v => v.id = uid) = some u := hu
      exact ⟨usersNonneg_save hbal (hbal u (List.mem_of_find?_eq_some hu')),
        hamt⟩
  | resetPassword e np =>
    simp only [applyOp, resetPassword] at hok
    split at hok
    · exact Except.noConfusion hok
    split at hok
    · exact Except.noConfusion hok
    next u hu =>
      simp only [Except.ok.injEq] at hok
      subst hok
      have hu' : db.users.find? (fun v => v.email = e) = some u := hu
      exact ⟨usersNonneg_save hbal (hbal u (List.mem_of_find?_eq_some hu')),
        hamt⟩

/-- The store after the admin balance edit in the C6/C7 witnesses. -/
def demoDbAfterEdit : Db :=
  { users := [{ id := "u1", email := "user@example.com",
                password := "pw123456", username := "Demo User",
                userType := "user", status := "approved", balance := 7,
                createdAt := 0 }],
    txns := [] }

/-- Witness for C6: the invariant holds of the demo store and is
preserved by a concrete successful operation. -/
theorem ledger_inv_preserved_witness :
    LedgerInv demoDb ∧
    applyOp (ServerOp.updateBalance "u1" 7) demoDb = .ok demoDbAfterEdit ∧
    LedgerInv demoDbAfterEdit :=
  ⟨⟨by decide, by decide⟩, by decide,
   ledger_inv_preserved (ServerOp.updateBalance "u1" 7) demoDb demoDbAfterEdit
     ⟨by decide, by decide⟩ (by decide)⟩

/-! ### C7: which operations may write a balance -/

/-- The three Transaction Lifecycle Manager operations (create, approve,
deny). -/
def lifecycleOp : ServerOp → Bool
  | .createTxn _ _ _ _ _ _ => true
  | .approveTx _ _ => true
  | .denyTx _ => true
  | _ => false

/-- The operations that may write a user's balance: the lifecycle
operations plus the admin balance edit `POST /api/admin/update-balance`. -/
def balanceWriteOp (op : ServerOp) : Bool :=
  lifecycleOp op ||
    (match op with
     | .updateBalance _ _ => true
     | _ => false)

/-- **C7 (counterexample).** The admin endpoint
`POST /api/admin/update-balance` is not a lifecycle transition, yet a
successful call changes the user's balance (here from 100 to 7) — so it
is not true that only the three Lifecycle Manager transitions mutate
balance. -/
theorem update_balance_outside_lifecycle :
    lifecycleOp (ServerOp.updateBalance "u1" 7) = false ∧
    applyOp (ServerOp.updateBalance "u1" 7) demoDb = .ok demoDbAfterEdit ∧
    balOf demoDb "u1" = some 100 ∧
    balOf demoDbAfterEdit "u1" = some 7 := by decide

/-- Saving a user document that keeps the id and balance of a stored
document leaves every balance lookup unchanged (uses uniqueness of the
`id` key, which the schema's unique index guarantees). -/
theorem balOf_saveUser_preserve (db : Db) (x u : User) (uid : String)
    (hnd : (db.users.map (fun v => v.id)).Nodup)
    (hu : u ∈ db.users) (hid : x.id = u.id) (hbal : x.balance = u.balance) :
    balOf (saveUser db x) uid = balOf db uid := by
  rw [balOf_saveUser]
  split_ifs with hc
  · cases hfind : findUser db uid with
    | none => simp [balOf, hfind]
    | some w =>
      have hfind' : db.users.find? (fun v => v.id = uid) = some w := hfind
      have hw : w ∈ db.users := List.mem_of_find?_eq_some hfind'
      have hwid : w.id = uid := key_of_find? hfind'
      have hwu : w = u :=
        List.inj_on_of_nodup_map hnd hw hu (by rw [hwid, ← hc, hid])
      simp [balOf, hfind, hwu, hbal]
  · rfl

/-- **C7 (amended).** Besides the three Lifecycle Manager transitions
(withdraw escrow at creation, deposit credit / buy debit at approval,
withdraw refund at denial) the program exposes one further balance
writer, the admin `update-balance` endpoint; every other operation
leaves the balance of every existing user unchanged.  (The no-duplicate
hypothesis on user ids reflects the schema's unique index.) -/
theorem balance_mutation_confined (op : ServerOp) (db db' : Db)
    (uid : String) (b : ℚ)
    (hnd : (db.users.map (fun v => v.id)).Nodup)
    (hop : balanceWriteOp op = false)
    (hok : applyOp op db = .ok db')
    (hb : balOf db uid = some b) : balOf db' uid = some b := by
  cases op with
  | updateBalance u0 nb => simp [balanceWriteOp, lifecycleOp] at hop
  | createTxn u0 ty a wa nid now => simp [balanceWriteOp, lifecycleOp] at hop
  | approveTx tid now => simp [balanceWriteOp, lifecycleOp] at hop
  | denyTx tid => simp [balanceWriteOp, lifecycleOp] at hop
  | register e p un nid now =>
    simp only [applyOp, registerUser] at hok
    split at hok
    · exact Except.noConfusion hok
    split at hok
    · exact Except.noConfusion hok
    simp only [Except.ok.injEq] at hok
    subst hok
    cases hfind : findUser db uid with
    | none => simp [balOf, hfind] at hb
    | some w =>
      simp only [balOf, findUser_insertUser_left db _ w uid hfind]
      simp only [balOf, hfind] at hb
      exact hb
  | approveUser u0 =>
    simp only [applyOp, approveUser] at hok
    split at hok
    · exact Except.noConfusion hok
    next u hu =>
      simp only [Except.ok.injEq] at hok
      subst hok
      have hu' : db.users.find? (fun v => v.id = u0) = some u := hu
      rw [balOf_saveUser_preserve db _ u uid hnd
        (List.mem_of_find?_eq_some hu') (by rfl) (by rfl)]
      exact hb
  | updateProfile u0 un em =>
    simp only [applyOp, updateProfile] at hok
    split at hok
    · exact Except.noConfusion hok
    split at hok
    · exact Except.noConfusion hok
    next u hu =>
      have hu' : db.users.find? (fun v => v.id = u0) = some u := hu
      have hmem := List.mem_of_find?_eq_some hu'
      split at hok
      · split at hok
        · exact Except.noConfusion hok
        · simp only [Except.ok.injEq] at hok
          subst hok
          rw [balOf_saveUser_preserve db _ u uid hnd hmem (by rfl) (by rfl)]
          exact hb
      · simp only [Except.ok.injEq] at hok
        subst hok
        rw [balOf_saveUser_preserve db _ u uid hnd hmem (by rfl) (by rfl)]
        exact hb
  | changePassword u0 c n cf =>
    simp only [applyOp, changePassword] at hok
    split at hok
    · exact Except.noConfusion hok
    split at hok
    · exact Except.noConfusion hok
    split at hok
    · exact Except.noConfusion hok
    split at hok
    · exact Except.noConfusion hok
    next u hu =>
      split at hok
      · exact Except.noConfusion hok
      simp only [Except.ok.injEq] at hok
      subst hok
      have hu' : db.users.find? (fun v => v.id = u0) = some u := hu
      rw [balOf_saveUser_preserve db _ u uid hnd
        (List.mem_of_find?_eq_some hu') (by rfl) (by rfl)]
      exact hb
  | resetPassword e np =>
    simp only [applyOp, resetPassword] at hok
    split at hok
    · exact Except.noConfusion hok
    split at hok
    · exact Except.noConfusion hok
    next u hu =>
      simp only [Except.ok.injEq] at hok
      subst hok
      have hu' : db.users.find? (fun v => v.email = e) = some u := hu
      rw [balOf_saveUser_preserve db _ u uid hnd
        (List.mem_of_find?_eq_some hu') (by rfl) (by rfl)]
      exact hb

/-- Witness for the amended C7: `approve-user` succeeds on the demo store
and leaves the balance of `u1` at 100. -/
theorem balance_mutation_confined_witness :
    applyOp (ServerOp.approveUser "u1") demoDb = .ok demoDb ∧
    balOf demoDb "u1" = some 100 :=
  ⟨by decide,
   balance_mutation_confined (ServerOp.approveUser "u1") demoDb demoDb "u1"
     100 (by decide) (by decide) (by decide) (by decide)⟩
